import Mathlib

/-!
Shallow embedding of the request-authentication core of this repository:
the class `LoginHandler` in `notebook/auth/login.py`, together with the
fragment of CPython's `urllib.parse` (`urlsplit`, `urlparse`, `urlunsplit`,
`urlunparse`, `_splitnetloc`, `_splitparams`) that
`LoginHandler._redirect_safe` relies on.

Conventions of the embedding:
* Python strings are modelled as `List Char`.
* Absent dictionary entries and `None`-valued attributes are `Option`.
* Functions that can return Python `None` return `Option`.
* The `ValueError` that `urlsplit` raises on unbalanced IPv6 brackets is a
  `none` result, which the callers propagate.
* `uuid.uuid4().hex` is modelled by a `fresh` parameter: the claims under
  scrutiny depend only on whether an identifier is minted, not on its value.
* The compiled regular expression `self.allow_origin_pat` is abstracted as
  its `.match` test, an arbitrary `List Char → Bool`.
-/

namespace NotebookAuth

/-- Python strings are modelled as lists of characters. -/
abbrev Str := List Char

/-- Truthiness of a Python string: `''` is falsy, everything else truthy. -/
def strTruthy (s : Str) : Bool := !s.isEmpty

/-- Truthiness of an optional Python string: `None` and `''` are falsy. -/
def optStrTruthy : Option Str → Bool
  | none => false
  | some s => !s.isEmpty

/-- `url.replace("\x5c", "%5C")` (login.py line 44): every literal backslash
is replaced by its percent-encoded form.  `str.replace` with a one-character
pattern substitutes each occurrence independently, left to right. -/
def replaceBackslash : Str → Str
  | [] => []
  | c :: rest => (if c = '\\' then "%5C".toList else [c]) ++ replaceBackslash rest

/-! ### The `urllib.parse` fragment used by `_redirect_safe` -/

/-- Characters legal in a URL scheme (`urllib.parse.scheme_chars`:
letters, digits, `+`, `-`, `.`). -/
def schemeChar (c : Char) : Bool :=
  c.isAlphanum || c = '+' || c = '-' || c = '.'

/-- Delimiters ending the network-location part: `urllib.parse._splitnetloc`
cuts the netloc at the earliest of `/`, `?`, `#`. -/
def netlocDelim (c : Char) : Bool := c = '/' || c = '?' || c = '#'

/-- Result of `urllib.parse.urlsplit`. -/
structure SplitResult where
  scheme : Str
  netloc : Str
  path : Str
  query : Str
  fragment : Str
deriving DecidableEq, Repr

/-- Result of `urllib.parse.urlparse` (`urlsplit` plus the `params` field
split off the last path segment). -/
structure ParseResult where
  scheme : Str
  netloc : Str
  path : Str
  params : Str
  query : Str
  fragment : Str
deriving DecidableEq, Repr

/-- `urllib.parse.urlsplit(url)` with the default `scheme=''` and
`allow_fragments=True` (CPython 3.7+): a leading `name:` made of scheme
characters is split off and lowercased, `//...` introduces the netloc up to
the next `/`, `?` or `#`, then the fragment and the query are split off (in
that order).  Returns `none` where CPython raises
`ValueError("Invalid IPv6 URL")`, i.e. when the netloc contains `[` without
`]` or vice versa. -/
def urlsplit (url : Str) : Option SplitResult :=
  let pre := url.takeWhile (fun c => c ≠ ':')
  let hasScheme : Bool :=
    decide (':' ∈ url) && !pre.isEmpty && pre.all schemeChar
  let scheme := if hasScheme then pre.map Char.toLower else []
  let rest1 := if hasScheme then url.drop (pre.length + 1) else url
  let hasNetloc : Bool := decide (rest1.take 2 = "//".toList)
  let netloc :=
    if hasNetloc then (rest1.drop 2).takeWhile (fun c => !netlocDelim c) else []
  let rest2 :=
    if hasNetloc then (rest1.drop 2).dropWhile (fun c => !netlocDelim c) else rest1
  if ('[' ∈ netloc ∧ ']' ∉ netloc) ∨ (']' ∈ netloc ∧ '[' ∉ netloc) then
    none
  else
    let rest3 := if '#' ∈ rest2 then rest2.takeWhile (fun c => c ≠ '#') else rest2
    let fragment :=
      if '#' ∈ rest2 then (rest2.dropWhile (fun c => c ≠ '#')).drop 1 else []
    let path := if '?' ∈ rest3 then rest3.takeWhile (fun c => c ≠ '?') else rest3
    let query :=
      if '?' ∈ rest3 then (rest3.dropWhile (fun c => c ≠ '?')).drop 1 else []
    some ⟨scheme, netloc, path, query, fragment⟩

/-- The schemes for which `urlparse` splits `;parameters` off the path
(`urllib.parse.uses_params`; note that the empty scheme is included). -/
def usesParams : List Str :=
  ["", "ftp", "hdl", "prospero", "http", "imap", "https", "shttp", "rtsp",
   "rtspu", "sip", "sips", "mms", "sftp", "tel"].map String.toList

/-- `urllib.parse._splitparams(url)`: split `;parameters` off the last path
segment.  When the path contains a `/`, only a `;` at or after the last `/`
counts; the caller only invokes this when a `;` occurs somewhere. -/
def splitparams (l : Str) : Str × Str :=
  if '/' ∈ l then
    let seg := (l.reverse.takeWhile (fun c => c ≠ '/')).reverse
    if ';' ∈ seg then
      (l.take (l.length - seg.length) ++ seg.takeWhile (fun c => c ≠ ';'),
       (seg.dropWhile (fun c => c ≠ ';')).drop 1)
    else (l, [])
  else
    (l.takeWhile (fun c => c ≠ ';'), (l.dropWhile (fun c => c ≠ ';')).drop 1)

/-- `urllib.parse.urlparse(url)`. -/
def urlparse (url : Str) : Option ParseResult :=
  match urlsplit url with
  | none => none
  | some r =>
    let pp :=
      if r.scheme ∈ usesParams ∧ ';' ∈ r.path then splitparams r.path
      else (r.path, [])
    some ⟨r.scheme, r.netloc, pp.1, pp.2, r.query, r.fragment⟩

/-- `urllib.parse.urlunsplit((scheme, netloc, url, query, fragment))`. -/
def urlunsplit (scheme netloc url query fragment : Str) : Str :=
  let url :=
    if netloc ≠ [] ∨ (url ≠ [] ∧ url.take 2 = "//".toList) then
      ['/', '/'] ++ netloc ++
        (if url ≠ [] ∧ url.take 1 ≠ ['/'] then '/' :: url else url)
    else url
  let url := if scheme ≠ [] then scheme ++ ':' :: url else url
  let url := if query ≠ [] then url ++ '?' :: query else url
  if fragment ≠ [] then url ++ '#' :: fragment else url

/-- `urllib.parse.urlunparse((scheme, netloc, url, params, query, fragment))`. -/
def urlunparse (scheme netloc url params query fragment : Str) : Str :=
  urlunsplit scheme netloc (if params ≠ [] then url ++ ';' :: params else url)
    query fragment

/-! ### Settings, requests and cookies -/

/-- The `secure` and `httponly` entries of the tornado `cookie_options`
dictionary; `none` models an absent key. -/
structure CookieOptions where
  httponly : Option Bool
  secure : Option Bool
deriving DecidableEq, Repr

/-- The process-wide tornado `settings` entries the authentication core
reads.  `[]` models an unset string entry, `none` an absent key. -/
structure Settings where
  password : Str
  token : Str
  one_time_token : Option Str
  cookie_options : Option CookieOptions
  secure_cookie : Option Bool
  allow_origin : Str
deriving DecidableEq, Repr

/-- The request-derived inputs a `LoginHandler` consults:
`request.protocol`, `request.host`, `get_argument('token', '')`,
`request.headers.get('Authorization', '')`,
`get_argument('password', default='')`, `get_argument('next', ...)`
(`none` = absent) and `get_secure_cookie(cookie_name)`
(`none` = missing or invalid signature). -/
structure Request where
  protocol : Str
  host : Str
  token_arg : Str
  auth_header : Str
  password_arg : Str
  next_arg : Option Str
  cookie_user : Option Str

/-- `LoginHandler.set_login_cookie` (login.py lines 96-106): the cookie
options the issued cookie carries, and the settings afterwards.  The
dictionary returned by `settings.get('cookie_options', {})` aliases the
settings entry when the key is present, so the two `setdefault` writes
persist in the settings; when the key is absent a fresh dictionary is used
and the settings stay untouched.  The `secure` default is applied exactly
when `settings.get('secure_cookie', request.protocol == 'https')` is
truthy.  (The cookie value, `user_id`, is passed through unchanged by the
source and is omitted here.) -/
def set_login_cookie (s : Settings) (protocol : Str) : CookieOptions × Settings :=
  let co := s.cookie_options.getD ⟨none, none⟩
  let co := { co with httponly := some (co.httponly.getD true) }
  let co :=
    if s.secure_cookie.getD (decide (protocol = "https".toList)) then
      { co with secure := some (co.secure.getD true) }
    else co
  (co, { s with cookie_options := s.cookie_options.map (fun _ => co) })

/-! ### Token extraction and token authentication -/

/-- The ASCII characters matched by `\s` in a Python regular expression. -/
def pySpace (c : Char) : Bool :=
  c = ' ' || c = '\t' || c = '\n' || c = '\r' || c = '\x0b' || c = '\x0c'

/-- `LoginHandler.auth_header_pat.match(s)` followed by `.group(1)`: the
pattern is `token\s+(.+)` compiled with `re.IGNORECASE` and matched at the
start of the header.  `token` is matched case-insensitively, then one or
more whitespace characters, then `(.+)` captures a maximal non-empty run of
non-newline characters.  When everything after `token` is whitespace, the
engine backtracks `\s+` until `.` can consume the last non-newline
character, so the group becomes that single character (there is no match if
only the very first character after `token` is left, since `\s+` needs at
least one). -/
def authHeaderMatch (s : Str) : Option Str :=
  if ((s.take 5).map Char.toLower) = "token".toList then
    let r := s.drop 5
    if (r.takeWhile pySpace).isEmpty then none
    else
      let rest := r.dropWhile pySpace
      if !rest.isEmpty then some (rest.takeWhile (fun c => c ≠ '\n'))
      else
        match ((r.drop 1).reverse.dropWhile (fun c => c = '\n')) with
        | [] => none
        | c :: _ => some [c]
  else none

/-- `LoginHandler.get_token` (login.py lines 110-126): the `token` URL/body
parameter, falling back to the `Authorization: token <value>` header when
the parameter is absent or empty, and `''` when neither yields a token. -/
def get_token (req : Request) : Str :=
  let user_token := req.token_arg
  if !strTruthy user_token then
    match authHeaderMatch req.auth_header with
    | some g => g
    | none => user_token
  else user_token

/-- `LoginHandler.get_user_token` (login.py lines 185-213).  `fresh` stands
for the `uuid.uuid4().hex` minted on success.  The returned settings
reflect the `handler.settings.pop('one_time_token', None)` performed when a
one-time-token login succeeds; every other path leaves the settings
untouched. -/
def get_user_token (s : Settings) (req : Request) (fresh : Str) :
    Option Str × Settings :=
  let token := s.token
  if !strTruthy token then (none, s)
  else
    let user_token := get_token req
    if user_token = token then (some fresh, s)
    else if optStrTruthy s.one_time_token ∧ some user_token = s.one_time_token then
      (some fresh, { s with one_time_token := none })
    else (none, s)

/-- `LoginHandler.password_from_settings`: the hashed password from the
settings, `''` when unconfigured. -/
def password_from_settings (s : Settings) : Str := s.password

/-- `LoginHandler.get_login_available` (login.py lines 244-247):
`bool(password or token)`. -/
def get_login_available (s : Settings) : Bool :=
  strTruthy (password_from_settings s) || strTruthy s.token

/-- Result of `LoginHandler.get_user`: the resolved identity, the settings
afterwards, the `_token_authenticated` flag afterwards, and whether
`clear_login_cookie` was called. -/
structure GetUserResult where
  user_id : Option Str
  settings : Settings
  token_authenticated : Bool
  cleared_cookie : Bool

/-- `LoginHandler.get_user` (login.py lines 155-183).  `cache` is the
memoised `_user_id` attribute (`none` when unset), `tokauth` the incoming
`_token_authenticated` flag and `fresh` the uuid a token login would mint.
A truthy cache short-circuits everything; otherwise token authentication is
tried first, issuing a login cookie on success; then the secure cookie;
finally, with no identity and login unavailable, the fallback identity
`'anonymous'` is assigned (and the stale cookie is cleared). -/
def get_user (s : Settings) (cache : Option Str) (tokauth : Bool)
    (req : Request) (fresh : Str) : GetUserResult :=
  if optStrTruthy cache then ⟨cache, s, tokauth, false⟩
  else
    match get_user_token s req fresh with
    | (some u, s1) =>
      let cs := set_login_cookie s1 req.protocol
      ⟨some u, cs.2, true, false⟩
    | (none, s1) =>
      match req.cookie_user with
      | some u => ⟨some u, s1, tokauth, false⟩
      | none =>
        ⟨if !get_login_available s1 then some ("anonymous".toList) else none,
         s1, tokauth, true⟩

/-! ### The redirect guard -/

/-- The three outcomes of `_redirect_safe`'s vetting of a candidate:
kept because it is an absolute path inside `base_url`, kept because the
cross-origin check passed, or replaced by the default. -/
inductive RedirectTarget
  | SafeRelativePath
  | SafeCrossOrigin
  | Unsafe
deriving DecidableEq, Repr

/-- The handler state `_redirect_safe` consults: `self.base_url`, the
request's protocol and host, and the configured cross-origin allow list
(`allow_origin = []` models the unset empty string, `allow_origin_pat =
none` an unconfigured pattern; a configured pattern is abstracted as its
`.match` test on the lowercased origin). -/
structure RedirectCtx where
  base_url : Str
  protocol : Str
  host : Str
  allow_origin : Str
  allow_origin_pat : Option (Str → Bool)

/-- Lines 51-60 of login.py: the cross-origin check run when the candidate
is a full URL.  `origin0` is `'%s://%s' % (parsed.scheme, parsed.netloc)`;
it is lowercased, compared against the current request's origin, then —
via an `elif` chain — against `self.allow_origin` when that is truthy,
and only otherwise against `self.allow_origin_pat` when that is set. -/
def crossOriginAllow (ctx : RedirectCtx) (origin0 : Str) : Bool :=
  let origin := origin0.map Char.toLower
  if origin = ctx.protocol ++ "://".toList ++ ctx.host then true
  else if strTruthy ctx.allow_origin then decide (ctx.allow_origin = origin)
  else
    match ctx.allow_origin_pat with
    | some pat => pat origin
    | none => false

/-- The path-only reconstruction
`urlunparse(parsed._replace(netloc='', scheme=''))` of login.py line 46. -/
def pathOnly (p : ParseResult) : Str :=
  urlunparse [] [] p.path p.params p.query p.fragment

/-- The classification `LoginHandler._redirect_safe` (login.py lines 32-65)
performs on a candidate URL: the candidate is first backslash-normalized,
then parsed; it is kept as-is when it equals its path-only reconstruction
and its path (with a trailing slash appended) starts with `base_url`;
otherwise it is kept only when it is a full URL passing the cross-origin
check; otherwise the default is substituted.  `none` models the
`ValueError` `urlparse` may raise, which the source does not catch. -/
def classify (ctx : RedirectCtx) (url0 : Str) : Option RedirectTarget :=
  let url := replaceBackslash url0
  match urlparse url with
  | none => none
  | some parsed =>
    if url ≠ pathOnly parsed ∨
        ¬ (ctx.base_url.isPrefixOf (parsed.path ++ ['/']) = true) then
      if url ≠ pathOnly parsed ∧
          crossOriginAllow ctx
            (parsed.scheme ++ "://".toList ++ parsed.netloc) = true then
        some RedirectTarget.SafeCrossOrigin
      else some RedirectTarget.Unsafe
    else some RedirectTarget.SafeRelativePath

/-- `LoginHandler._redirect_safe(url, default)`: the URL finally passed to
`self.redirect` — the backslash-normalized candidate when it is allowed,
the default otherwise. -/
def redirect_safe (ctx : RedirectCtx) (url0 dflt : Str) : Option Str :=
  match classify ctx url0 with
  | none => none
  | some RedirectTarget.Unsafe => some dflt
  | some _ => some (replaceBackslash url0)

/-! ### The POST handler -/

/-- Outcome of `LoginHandler.post`: whether status 401 was set, whether the
login form was re-rendered with the `'Invalid password'` error message,
whether a login cookie was issued, the redirect target (`none` when no
redirect was issued), and the settings afterwards. -/
structure PostResult where
  status401 : Bool
  error_rendered : Bool
  cookie_set : Bool
  redirected_to : Option Str
  settings : Settings
deriving Repr

/-- The tail of `LoginHandler.post` (lines 93-94): read the `next` argument
(defaulting to `base_url`) and redirect through `_redirect_safe`. -/
def postRedirect (s : Settings) (pat : Option (Str → Bool)) (base_url : Str)
    (req : Request) (cookie : Bool) : Option PostResult :=
  let ctx : RedirectCtx := ⟨base_url, req.protocol, req.host, s.allow_origin, pat⟩
  match redirect_safe ctx (req.next_arg.getD base_url) base_url with
  | none => none
  | some target => some ⟨false, false, cookie, some target, s⟩

/-- `LoginHandler.post` (login.py lines 81-94).  `pc` abstracts
`passwd_check` from `notebook.auth.security` (outside this file); `fresh`
the uuid minted for the login cookie.  When login is available the
submitted password is checked against the hash, then — when a static token
is configured — for exact equality with it; on failure status 401 is set
and the form is re-rendered, with no cookie and no redirect.  `none` models
a `ValueError` escaping from `_redirect_safe`. -/
def post (pc : Str → Str → Bool) (s : Settings) (pat : Option (Str → Bool))
    (base_url : Str) (req : Request) : Option PostResult :=
  let typed := req.password_arg
  if get_login_available s then
    if pc (password_from_settings s) typed then
      let cs := set_login_cookie s req.protocol
      postRedirect cs.2 pat base_url req true
    else if strTruthy s.token ∧ s.token = typed then
      let cs := set_login_cookie s req.protocol
      postRedirect cs.2 pat base_url req true
    else some ⟨true, true, false, none, s⟩
  else postRedirect s pat base_url req false

/-! ### Helper lemmas -/

theorem mem_of_mem_takeWhile {a : Char} {p : Char → Bool} :
    ∀ {l : Str}, a ∈ l.takeWhile p → a ∈ l
  | [], h => by simp [List.takeWhile] at h
  | c :: t, h => by
    by_cases hc : p c
    · rcases (by simpa [hc] using h : a = c ∨ a ∈ t.takeWhile p) with h' | h'
      · simp [h']
      · exact List.mem_cons_of_mem _ (mem_of_mem_takeWhile h')
    · simp [hc] at h

theorem mem_of_mem_drop {a : Char} {n : Nat} {l : Str} (h : a ∈ l.drop n) :
    a ∈ l := by
  induction l generalizing n with
  | nil => simp at h
  | cons c t ih =>
    cases n with
    | zero => simpa using h
    | succ m => exact List.mem_cons_of_mem _ (ih (by simpa using h))

theorem mem_of_mem_dropWhile {a : Char} {p : Char → Bool} :
    ∀ {l : Str}, a ∈ l.dropWhile p → a ∈ l
  | [], h => by simp [List.dropWhile] at h
  | c :: t, h => by
    by_cases hc : p c
    · exact List.mem_cons_of_mem _ (mem_of_mem_dropWhile (by simpa [hc] using h))
    · simpa [hc] using h

/-- For code points in the uppercase ASCII range, lowering never yields a
backslash (the image range is `[97, 122]` and `\` is `92`). -/
theorem toLower_ofNat_ne_backslash :
    ∀ n, 65 ≤ n → n ≤ 90 → (Char.ofNat n).toLower ≠ '\\' := by
  intro n h1 h2
  interval_cases n <;> decide

/-- `Char.toLower` can only produce a backslash from a backslash. -/
theorem toLower_eq_backslash {c : Char} (h : c.toLower = '\\') : c = '\\' := by
  by_cases hc : 65 ≤ c.toNat ∧ c.toNat ≤ 90
  · exfalso
    have haux := toLower_ofNat_ne_backslash c.toNat hc.1 hc.2
    rw [Char.ofNat_toNat c] at haux
    exact haux h
  · have hid : c.toLower = c := by
      unfold Char.toLower
      simp only [ge_iff_le]
      rw [if_neg hc]
    rwa [hid] at h

theorem backslash_not_mem_replaceBackslash : ∀ s : Str, '\\' ∉ replaceBackslash s
  | [] => by simp [replaceBackslash]
  | c :: t => by
    intro h
    simp only [replaceBackslash] at h
    rcases List.mem_append.1 h with h' | h'
    · by_cases hc : c = '\\'
      · rw [if_pos hc] at h'
        revert h'
        decide
      · rw [if_neg hc, List.mem_singleton] at h'
        exact hc h'.symm
    · exact backslash_not_mem_replaceBackslash t h'

/-- Everything in the scheme of a split result is the lowercase image of a
character of the input, and the netloc is made of characters of the input. -/
theorem urlsplit_chars {url : Str} {r : SplitResult} (h : urlsplit url = some r) :
    (∀ c ∈ r.scheme, ∃ c0 ∈ url, c0.toLower = c) ∧ ∀ c ∈ r.netloc, c ∈ url := by
  simp only [urlsplit] at h
  repeat' split at h
  all_goals
    try exact Option.noConfusion h
  all_goals
    rw [Option.some_inj] at h
  all_goals
    subst h
  all_goals
    refine ⟨fun c hc => ?_, fun c hc => ?_⟩
  all_goals
    first
      | exact absurd hc (List.not_mem_nil c)
      | (rcases List.mem_map.1 hc with ⟨c0, hc0, hl⟩
         exact ⟨c0, mem_of_mem_takeWhile hc0, hl⟩)
      | exact mem_of_mem_drop (mem_of_mem_takeWhile hc)
      | exact mem_of_mem_drop (mem_of_mem_drop (mem_of_mem_takeWhile hc))

/-- `urlparse` passes scheme and netloc through from `urlsplit`. -/
theorem urlparse_scheme_netloc {url : Str} {p : ParseResult}
    (h : urlparse url = some p) :
    ∃ r, urlsplit url = some r ∧ p.scheme = r.scheme ∧ p.netloc = r.netloc := by
  unfold urlparse at h
  split at h
  · exact absurd h (by simp)
  · rename_i r hr
    rw [Option.some_inj] at h
    exact ⟨r, hr, by rw [← h], by rw [← h]⟩

theorem set_login_cookie_frame (s : Settings) (protocol : Str) :
    (set_login_cookie s protocol).2.password = s.password
  ∧ (set_login_cookie s protocol).2.token = s.token
  ∧ (set_login_cookie s protocol).2.one_time_token = s.one_time_token
  ∧ (set_login_cookie s protocol).2.secure_cookie = s.secure_cookie
  ∧ (set_login_cookie s protocol).2.allow_origin = s.allow_origin := by
  simp [set_login_cookie]

theorem get_user_token_frame (s : Settings) (req : Request) (fresh : Str) :
    (get_user_token s req fresh).2 = s ∨
      ((get_user_token s req fresh).2 = { s with one_time_token := none }
        ∧ (get_user_token s req fresh).1.isSome = true) := by
  by_cases h1 : strTruthy s.token = true
  · by_cases h2 : get_token req = s.token
    · left; simp [get_user_token, h1, h2]
    · by_cases h3 : optStrTruthy s.one_time_token = true
          ∧ some (get_token req) = s.one_time_token
      · right
        constructor <;> simp [get_user_token, h1, h2, h3]
      · left; simp [get_user_token, h1, h2, h3]
  · left; simp [get_user_token, h1]

theorem get_user_settings_frame (s : Settings) (cache : Option Str) (ta : Bool)
    (req : Request) (fresh : Str) :
    (get_user s cache ta req fresh).settings.password = s.password
  ∧ (get_user s cache ta req fresh).settings.token = s.token
  ∧ (get_user s cache ta req fresh).settings.secure_cookie = s.secure_cookie
  ∧ (get_user s cache ta req fresh).settings.allow_origin = s.allow_origin := by
  have hgut := get_user_token_frame s req fresh
  unfold get_user
  by_cases hc : optStrTruthy cache = true
  · simp [hc]
  · rcases hg : get_user_token s req fresh with ⟨uid, s1⟩
    rw [hg] at hgut
    dsimp only at hgut
    have hs1 : s1.password = s.password ∧ s1.token = s.token
        ∧ s1.secure_cookie = s.secure_cookie ∧ s1.allow_origin = s.allow_origin := by
      rcases hgut with h | ⟨h, _⟩ <;> subst h <;> exact ⟨rfl, rfl, rfl, rfl⟩
    rcases uid with _ | u
    · rcases hk : req.cookie_user with _ | u2 <;>
        simp [hc, hg, hk, hs1.1, hs1.2.1, hs1.2.2.1, hs1.2.2.2]
    · have hslc := set_login_cookie_frame s1 req.protocol
      simp [hc, hg, hslc.1, hslc.2.1, hslc.2.2.2.1, hslc.2.2.2.2,
        hs1.1, hs1.2.1, hs1.2.2.1, hs1.2.2.2]

theorem crossOriginAllow_iff (ctx : RedirectCtx) (origin0 : Str) :
    crossOriginAllow ctx origin0 = true ↔
      (origin0.map Char.toLower = ctx.protocol ++ "://".toList ++ ctx.host
        ∨ (ctx.allow_origin ≠ [] ∧
            ctx.allow_origin = origin0.map Char.toLower)
        ∨ (ctx.allow_origin = [] ∧
            ∃ pm, ctx.allow_origin_pat = some pm
              ∧ pm (origin0.map Char.toLower) = true)) := by
  unfold crossOriginAllow
  by_cases h1 : origin0.map Char.toLower = ctx.protocol ++ "://".toList ++ ctx.host
  · simp [h1]
  · by_cases h2 : strTruthy ctx.allow_origin = true
    · have h2' : ctx.allow_origin ≠ [] := by
        simpa [strTruthy, List.isEmpty_iff] using h2
      simp [h1, h2, h2']
    · have h2' : ctx.allow_origin = [] := by
        simpa [strTruthy, List.isEmpty_iff] using h2
      cases hpat : ctx.allow_origin_pat with
      | none => simp [h1, h2, h2', hpat, strTruthy]
      | some pm => simp [h1, h2, h2', hpat, strTruthy]

/-! ### The claims -/

/-- C10: `get_token` gives the `token` query/body parameter precedence over
the `Authorization` header: the header (matched case-insensitively against
`token <value>`) is consulted exactly when the parameter is absent or
empty, and the result is the empty string when neither source yields a
token (`Option.getD []` collapses a failed header match to `''`). -/
theorem claim10_get_token_precedence (req : Request) :
    (req.token_arg ≠ [] → get_token req = req.token_arg)
  ∧ (req.token_arg = [] →
      get_token req = (authHeaderMatch req.auth_header).getD []) := by
  constructor
  · intro h
    simp [get_token, strTruthy, List.isEmpty_iff, h]
  · intro h
    simp only [get_token, strTruthy, h, List.isEmpty_nil, Bool.not_true,
      Bool.not_false, if_true]
    cases authHeaderMatch req.auth_header <;> simp

/-- C10 witness: with an empty `token` parameter the header
`Authorization: token abc` is consulted. -/
theorem claim10_witness :
    get_token ⟨[], [], [], "token abc".toList, [], none, none⟩ =
      (authHeaderMatch ("token abc".toList)).getD [] :=
  (claim10_get_token_precedence ⟨[], [], [], "token abc".toList, [], none, none⟩).2
    rfl

/-- C8: token authentication never errors: with no static token configured
`get_user_token` returns `none` at once (settings untouched) for every
request, and when the presented token matches neither the static token nor
a configured one-time token it returns `none` (settings untouched) rather
than failing. -/
theorem claim8_get_user_token_no_error (s : Settings) (req : Request)
    (fresh : Str) :
    (s.token = [] → get_user_token s req fresh = (none, s))
  ∧ (get_token req ≠ s.token →
      (∀ o, s.one_time_token = some o → get_token req ≠ o) →
      get_user_token s req fresh = (none, s)) := by
  constructor
  · intro h
    simp [get_user_token, strTruthy, h]
  · intro h1 h2
    by_cases ht : s.token = []
    · simp [get_user_token, strTruthy, ht]
    · simp only [get_user_token, strTruthy, Bool.not_not]
      rw [if_neg (by simp [List.isEmpty_iff, ht]), if_neg h1, if_neg]
      rintro ⟨htr, heq⟩
      cases ho : s.one_time_token with
      | none => rw [ho] at heq; exact Option.noConfusion heq
      | some o =>
        rw [ho] at heq
        exact h2 o ho (Option.some_inj.1 heq)

/-- C8 witness: no token configured, a token presented anyway. -/
theorem claim8_witness :
    get_user_token ⟨[], [], none, none, none, []⟩
        ⟨[], [], "abc".toList, [], [], none, none⟩ ("u1".toList) =
      (none, ⟨[], [], none, none, none, []⟩) :=
  (claim8_get_user_token_no_error ⟨[], [], none, none, none, []⟩
    ⟨[], [], "abc".toList, [], [], none, none⟩ ("u1".toList)).1 rfl

/-- C3: the one-time token is valid for exactly one successful use: from a
state configuring it (static token also configured, or token auth is
disabled altogether), the request presenting it authenticates and the token
is removed from the settings; afterwards any request presenting the same
token fails exactly like a request presenting any other wrong token — the
same `none` outcome and unchanged settings, with no distinct error. -/
theorem claim3_one_time_token_single_use (s : Settings)
    (req1 req2 req3 : Request) (f1 f2 f3 ott : Str)
    (htok : s.token ≠ []) (hott : s.one_time_token = some ott)
    (hne : ott ≠ []) (hstatic : ott ≠ s.token)
    (h1 : get_token req1 = ott) (h2 : get_token req2 = ott)
    (h3 : get_token req3 ≠ s.token) :
    get_user_token s req1 f1 = (some f1, { s with one_time_token := none })
  ∧ get_user_token { s with one_time_token := none } req2 f2 =
      (none, { s with one_time_token := none })
  ∧ get_user_token { s with one_time_token := none } req2 f2 =
      get_user_token { s with one_time_token := none } req3 f3 := by
  have hs1 : get_user_token s req1 f1 =
      (some f1, { s with one_time_token := none }) := by
    simp only [get_user_token, strTruthy]
    rw [if_neg (by simp [List.isEmpty_iff, htok]), if_neg (by rw [h1]; exact hstatic),
      if_pos]
    exact ⟨by simp [optStrTruthy, hott, List.isEmpty_iff, hne], by rw [h1, hott]⟩
  have hfail : ∀ (req : Request) (f : Str), get_token req ≠ s.token →
      get_user_token { s with one_time_token := none } req f =
        (none, { s with one_time_token := none }) := by
    intro req f hreq
    simp only [get_user_token, strTruthy]
    rw [if_neg (by simp [List.isEmpty_iff, htok]), if_neg (by exact hreq), if_neg]
    simp [optStrTruthy]
  refine ⟨hs1, hfail req2 f2 (by rw [h2]; exact hstatic), ?_⟩
  rw [hfail req2 f2 (by rw [h2]; exact hstatic), hfail req3 f3 h3]

/-- C3 witness: static token `"st"`, one-time token `"ot"`; the first use
consumes it. -/
theorem claim3_witness :
    get_user_token ⟨[], "st".toList, some ("ot".toList), none, none, []⟩
        ⟨[], [], "ot".toList, [], [], none, none⟩ ("u1".toList) =
      (some ("u1".toList),
        { (⟨[], "st".toList, some ("ot".toList), none, none, []⟩ : Settings) with
            one_time_token := none }) :=
  (claim3_one_time_token_single_use
    ⟨[], "st".toList, some ("ot".toList), none, none, []⟩
    ⟨[], [], "ot".toList, [], [], none, none⟩
    ⟨[], [], "ot".toList, [], [], none, none⟩
    ⟨[], [], "zz".toList, [], [], none, none⟩
    ("u1".toList) ("u2".toList) ("u3".toList) ("ot".toList)
    (by decide) rfl (by decide) (by decide) (by decide) (by decide)
    (by decide)).1

/-- C9: with neither password nor token authentication configured and no
valid session cookie, `get_user` assigns the fallback identity
`'anonymous'` rather than leaving the user unresolved or failing. -/
theorem claim9_anonymous_fallback (s : Settings) (cache : Option Str)
    (ta : Bool) (req : Request) (fresh : Str)
    (hc : optStrTruthy cache = false) (hp : s.password = [])
    (ht : s.token = []) (hk : req.cookie_user = none) :
    (get_user s cache ta req fresh).user_id = some ("anonymous".toList) := by
  have hgut : get_user_token s req fresh = (none, s) := by
    simp [get_user_token, strTruthy, ht]
  simp [get_user, hc, hgut, hk, get_login_available, password_from_settings,
    strTruthy, hp, ht]

/-- C9 witness: an entirely unconfigured instance with no cookie. -/
theorem claim9_witness :
    (get_user ⟨[], [], none, none, none, []⟩ none false
        ⟨[], [], [], [], [], none, none⟩ ("u1".toList)).user_id =
      some ("anonymous".toList) :=
  claim9_anonymous_fallback ⟨[], [], none, none, none, []⟩ none false
    ⟨[], [], [], [], [], none, none⟩ ("u1".toList) rfl rfl rfl rfl

/-- C7: when login is available, the submitted password fails the hash
check, and the submitted password does not exactly equal the static token
(when one is configured), `post` sets status 401, re-renders the form with
the error message, sets no cookie, issues no redirect, and leaves the
settings unchanged. -/
theorem claim7_post_reject (pc : Str → Str → Bool) (s : Settings)
    (pat : Option (Str → Bool)) (base_url : Str) (req : Request)
    (havail : get_login_available s = true)
    (hpw : pc (password_from_settings s) req.password_arg = false)
    (htok : s.token ≠ [] → s.token ≠ req.password_arg) :
    post pc s pat base_url req = some ⟨true, true, false, none, s⟩ := by
  simp only [post, havail, if_true, hpw, Bool.false_eq_true, if_false]
  rw [if_neg]
  rintro ⟨htr, heq⟩
  exact htok (by simpa [strTruthy, List.isEmpty_iff] using htr) heq

/-- C7 witness: password configured, wrong password submitted, checker
rejects. -/
theorem claim7_witness :
    post (fun _ _ => false) ⟨"sha1:h".toList, [], none, none, none, []⟩ none
        ("/".toList) ⟨[], [], [], [], "wrong".toList, none, none⟩ =
      some ⟨true, true, false, none, ⟨"sha1:h".toList, [], none, none, none, []⟩⟩ :=
  claim7_post_reject (fun _ _ => false)
    ⟨"sha1:h".toList, [], none, none, none, []⟩ none ("/".toList)
    ⟨[], [], [], [], "wrong".toList, none, none⟩ rfl rfl (by decide)

/-- C2 counterexample: over HTTPS but with the `secure_cookie` setting
explicitly configured to `False`, the issued cookie's `secure` attribute is
NOT set — refuting "a request arriving over HTTPS always gets a secure
cookie regardless of the configured flag's value". -/
theorem claim2_counterexample :
    ¬ ((set_login_cookie ⟨[], [], none, none, some false, []⟩
        ("https".toList)).1.secure = some true) := by
  decide

/-- C2 (amended): the issued cookie's `secure` attribute is set exactly
when the configured `cookie_options` dictionary does not already carry a
`secure` entry and `settings.get('secure_cookie', protocol == 'https')` is
truthy — i.e. the explicit `secure_cookie` setting, when present, alone
decides, and HTTPS matters only when it is absent; a pre-existing `secure`
entry is never overridden (it is kept, whatever it is). -/
theorem claim2_secure_cookie (s : Settings) (protocol : Str) :
    (set_login_cookie s protocol).1.secure = some true ↔
      ((s.cookie_options.getD ⟨none, none⟩).secure = some true ∨
        ((s.cookie_options.getD ⟨none, none⟩).secure = none ∧
          (s.secure_cookie = some true ∨
            (s.secure_cookie = none ∧ protocol = "https".toList)))) := by
  obtain ⟨p, t, o, co, sc, ao⟩ := s
  by_cases hp : protocol = ['h', 't', 't', 'p', 's']
  all_goals rcases co with _ | ⟨ho, hs⟩
  all_goals try rcases hs with _ | b2
  all_goals rcases sc with _ | b
  all_goals try cases b
  all_goals try cases b2
  all_goals simp [set_login_cookie, Option.getD, hp]

/-- C6 counterexample: issuing a login cookie mutates the settings when a
`cookie_options` dictionary is configured — `setdefault` writes the
`httponly` default into the shared dictionary — refuting "every other
operation, including issuing a login cookie on any request, leaves the
configuration/settings state unchanged". -/
theorem claim6_counterexample :
    (set_login_cookie ⟨[], [], none, some ⟨none, none⟩, none, []⟩
        ("http".toList)).2
      ≠ (⟨[], [], none, some ⟨none, none⟩, none, []⟩ : Settings) := by
  decide

/-- C6 (amended): the settings are mutated by exactly two events: one-time
token consumption (which clears `one_time_token` and happens only on a
successful one-time authentication), and login-cookie issuance, which —
only when a `cookie_options` dictionary is configured in the settings —
writes the defaulted `httponly`/`secure` entries back into it; every other
settings field is preserved by `set_login_cookie`, `get_user_token` and
`get_user`. -/
theorem claim6_settings_mutation (s : Settings) (protocol : Str)
    (req : Request) (fresh : Str) (cache : Option Str) (ta : Bool) :
    ((set_login_cookie s protocol).2.password = s.password
      ∧ (set_login_cookie s protocol).2.token = s.token
      ∧ (set_login_cookie s protocol).2.one_time_token = s.one_time_token
      ∧ (set_login_cookie s protocol).2.secure_cookie = s.secure_cookie
      ∧ (set_login_cookie s protocol).2.allow_origin = s.allow_origin)
  ∧ (s.cookie_options = none → (set_login_cookie s protocol).2 = s)
  ∧ ((get_user_token s req fresh).2 = s ∨
      ((get_user_token s req fresh).2 = { s with one_time_token := none }
        ∧ (get_user_token s req fresh).1.isSome = true))
  ∧ ((get_user s cache ta req fresh).settings.password = s.password
      ∧ (get_user s cache ta req fresh).settings.token = s.token
      ∧ (get_user s cache ta req fresh).settings.secure_cookie = s.secure_cookie
      ∧ (get_user s cache ta req fresh).settings.allow_origin = s.allow_origin) := by
  refine ⟨set_login_cookie_frame s protocol, ?_, get_user_token_frame s req fresh,
    get_user_settings_frame s cache ta req fresh⟩
  intro h
  simp only [set_login_cookie, h, Option.map_none']
  rw [← h]

/-- C4: `_redirect_safe` replaces every literal backslash with `%5C` before
any URL parsing: for every input containing a backslash, the normalized
string contains no backslash, and neither the scheme nor the netloc of the
parse of the normalized string contains one — no backslash survives into
the scheme/authority comparison. -/
theorem claim4_backslash_normalization (s : Str) (_h : '\\' ∈ s) :
    '\\' ∉ replaceBackslash s
  ∧ ∀ p, urlparse (replaceBackslash s) = some p →
      '\\' ∉ p.scheme ∧ '\\' ∉ p.netloc := by
  refine ⟨backslash_not_mem_replaceBackslash s, fun p hp => ?_⟩
  obtain ⟨r, hr, hsch, hnet⟩ := urlparse_scheme_netloc hp
  obtain ⟨hs, hn⟩ := urlsplit_chars hr
  constructor
  · rw [hsch]
    intro hmem
    obtain ⟨c0, hc0, hl⟩ := hs '\\' hmem
    have hc0b : c0 = '\\' := toLower_eq_backslash hl
    exact backslash_not_mem_replaceBackslash s (hc0b ▸ hc0)
  · rw [hnet]
    intro hmem
    exact backslash_not_mem_replaceBackslash s (hn '\\' hmem)

/-- C4 witness: a backslash-carrying candidate is normalized to a
backslash-free string. -/
theorem claim4_witness : '\\' ∉ replaceBackslash ("/a\\b".toList) :=
  (claim4_backslash_normalization ("/a\\b".toList) (by decide)).1

/-- C5: a candidate is classified a safe relative path (and redirected to
in its normalized form) iff the normalized candidate equals its path-only
reconstruction and its parsed path with a trailing slash appended starts
with the base path; with base path `/nb/`, candidate `/nb/tree?x=1` is
redirected to as-is while the protocol-relative `//evil.test/nb/` is
classified Unsafe and replaced by the default. -/
theorem claim5_safe_relative_path :
    (∀ (ctx : RedirectCtx) (url : Str) (p : ParseResult),
      urlparse (replaceBackslash url) = some p →
        (classify ctx url = some RedirectTarget.SafeRelativePath ↔
          (replaceBackslash url = pathOnly p ∧
            ctx.base_url.isPrefixOf (p.path ++ ['/']) = true)))
  ∧ (∀ (ctx : RedirectCtx) (url dflt : Str),
      classify ctx url = some RedirectTarget.SafeRelativePath →
        redirect_safe ctx url dflt = some (replaceBackslash url))
  ∧ redirect_safe ⟨"/nb/".toList, "http".toList, "localhost".toList, [], none⟩
      ("/nb/tree?x=1".toList) ("/nb/".toList) = some ("/nb/tree?x=1".toList)
  ∧ classify ⟨"/nb/".toList, "http".toList, "localhost".toList, [], none⟩
      ("//evil.test/nb/".toList) = some RedirectTarget.Unsafe
  ∧ redirect_safe ⟨"/nb/".toList, "http".toList, "localhost".toList, [], none⟩
      ("//evil.test/nb/".toList) ("/nb/".toList) = some ("/nb/".toList) := by
  refine ⟨?_, ?_, by decide, by decide, by decide⟩
  · intro ctx url p hp
    simp only [classify, hp]
    split
    case isTrue hcond =>
      constructor
      · intro h
        split at h <;> exact RedirectTarget.noConfusion (Option.some_inj.1 h)
      · rintro ⟨h1, h2⟩
        rcases hcond with hne | hnp
        · exact absurd h1 hne
        · exact absurd h2 hnp
    case isFalse hcond =>
      push_neg at hcond
      exact iff_of_true rfl ⟨hcond.1, hcond.2⟩
  · intro ctx url dflt h
    simp only [redirect_safe, h]

/-- C5 witness: instantiating the iff at the relative candidate
`/nb/x?a=1` under base path `/nb/`. -/
theorem claim5_witness :
    classify ⟨"/nb/".toList, "http".toList, "localhost".toList, [], none⟩
        ("/nb/x?a=1".toList) = some RedirectTarget.SafeRelativePath :=
  (claim5_safe_relative_path.1
    ⟨"/nb/".toList, "http".toList, "localhost".toList, [], none⟩
    ("/nb/x?a=1".toList)
    ⟨[], [], "/nb/x".toList, [], "a=1".toList, []⟩ (by decide)).mpr
    (by decide)

/-- C1 counterexample: an exact allowed origin `https://a.test` and a
pattern matching `https://b.test` are both configured; the candidate
`https://b.test/x` is a full URL whose lowercased origin differs from the
current origin and matches only the pattern, yet `_redirect_safe`
classifies it Unsafe — the `elif` chain never consults the pattern when an
exact allowed origin is configured — refuting the claim that such an
origin is still allowed. -/
theorem claim1_counterexample :
    (fun o => decide (o = "https://b.test".toList)) ("https://b.test".toList)
        = true
  ∧ urlparse (replaceBackslash ("https://b.test/x".toList)) =
      some ⟨"https".toList, "b.test".toList, "/x".toList, [], [], []⟩
  ∧ replaceBackslash ("https://b.test/x".toList) ≠
      pathOnly ⟨"https".toList, "b.test".toList, "/x".toList, [], [], []⟩
  ∧ classify ⟨"/nb/".toList, "http".toList, "localhost".toList,
        "https://a.test".toList,
        some (fun o => decide (o = "https://b.test".toList))⟩
      ("https://b.test/x".toList) = some RedirectTarget.Unsafe :=
  ⟨by decide, by decide, by decide, by decide⟩

/-- C1 (amended): for a candidate whose normalized form differs from its
path-only reconstruction (a full URL), `_redirect_safe` classifies
SafeCrossOrigin iff the lowercased origin equals the current request's
origin, OR exactly equals the configured allowed-origin string when one is
configured, OR — only when no exact allowed origin is configured —
matches the configured allowed-origin pattern; a candidate equal to its
path-only reconstruction whose path does not stay under the base path is
always Unsafe (the cross-origin check is not even attempted). -/
theorem claim1_cross_origin (ctx : RedirectCtx) (url : Str) (p : ParseResult)
    (hp : urlparse (replaceBackslash url) = some p) :
    (replaceBackslash url ≠ pathOnly p →
      (classify ctx url = some RedirectTarget.SafeCrossOrigin ↔
        ((p.scheme ++ "://".toList ++ p.netloc).map Char.toLower =
            ctx.protocol ++ "://".toList ++ ctx.host
          ∨ (ctx.allow_origin ≠ [] ∧
              ctx.allow_origin =
                (p.scheme ++ "://".toList ++ p.netloc).map Char.toLower)
          ∨ (ctx.allow_origin = [] ∧
              ∃ pm, ctx.allow_origin_pat = some pm ∧
                pm ((p.scheme ++ "://".toList ++ p.netloc).map Char.toLower)
                  = true))))
  ∧ (replaceBackslash url = pathOnly p →
      ctx.base_url.isPrefixOf (p.path ++ ['/']) = false →
      classify ctx url = some RedirectTarget.Unsafe) := by
  constructor
  · intro hne
    simp only [classify, hp]
    rw [if_pos (Or.inl hne)]
    by_cases hallow :
        crossOriginAllow ctx (p.scheme ++ "://".toList ++ p.netloc) = true
    · rw [if_pos ⟨hne, hallow⟩]
      exact iff_of_true rfl ((crossOriginAllow_iff ctx _).1 hallow)
    · rw [if_neg (fun hcontra => hallow hcontra.2)]
      exact iff_of_false
        (fun hh => RedirectTarget.noConfusion (Option.some_inj.1 hh))
        (fun hr => hallow ((crossOriginAllow_iff ctx _).2 hr))
  · intro heq hpref
    have hpref' : ¬ (ctx.base_url.isPrefixOf (p.path ++ ['/']) = true) := by
      rw [hpref]
      exact Bool.false_ne_true
    simp only [classify, hp]
    rw [if_pos (Or.inr hpref'), if_neg (fun hcontra => hcontra.1 heq)]

/-- C1 witness: with no exact allowed origin configured, a full URL whose
origin matches the configured pattern is allowed. -/
theorem claim1_witness :
    classify ⟨"/nb/".toList, "http".toList, "localhost".toList, [],
        some (fun o => decide (o = "https://b.test".toList))⟩
      ("https://b.test/x".toList) = some RedirectTarget.SafeCrossOrigin :=
  ((claim1_cross_origin
    ⟨"/nb/".toList, "http".toList, "localhost".toList, [],
      some (fun o => decide (o = "https://b.test".toList))⟩
    ("https://b.test/x".toList)
    ⟨"https".toList, "b.test".toList, "/x".toList, [], [], []⟩
    (by decide)).1 (by decide)).mpr
    (Or.inr (Or.inr ⟨rfl, _, rfl, by decide⟩))

/-- C6 witness: a concrete instantiation of the amended statement. -/
theorem claim6_witness :
    (get_user_token ⟨[], [], none, none, none, []⟩
        ⟨[], [], [], [], [], none, none⟩ ("u1".toList)).2 =
        (⟨[], [], none, none, none, []⟩ : Settings) ∨
      ((get_user_token ⟨[], [], none, none, none, []⟩
          ⟨[], [], [], [], [], none, none⟩ ("u1".toList)).2 =
          { (⟨[], [], none, none, none, []⟩ : Settings) with one_time_token := none }
        ∧ (get_user_token ⟨[], [], none, none, none, []⟩
            ⟨[], [], [], [], [], none, none⟩ ("u1".toList)).1.isSome = true) :=
  (claim6_settings_mutation ⟨[], [], none, none, none, []⟩ ("http".toList)
    ⟨[], [], [], [], [], none, none⟩ ("u1".toList) none false).2.2.1

end NotebookAuth
